import Mathlib

/-!
Verification of the WebR playground execution-and-result-formatting pipeline
(`WebRService` in the repository's webr-service module).

Strings are modelled as `List Char`; the external interpreter engine
(WebR's `shelter.captureR`) is modelled as an oracle value of type
`AdapterResult`: either a captured output stream together with optional
rendered images, or a thrown error with an optional message.  Wall-clock
readings (`performance.now`) are modelled by a rational elapsed time.
-/

/-- JavaScript whitespace characters relevant to `String.prototype.trim`. -/
def isJsWs (c : Char) : Bool :=
  c = ' ' || c = '\t' || c = '\n' || c = '\r' ||
  c = '\x0b' || c = '\x0c' || c = ' '

/-- `code.trim()` — strips JS whitespace from both ends. -/
def jsTrim (s : List Char) : List Char :=
  ((s.dropWhile isJsWs).reverse.dropWhile isJsWs).reverse

/-- `Math.round(x)` for the non-negative elapsed durations measured here. -/
def jsRound (q : ℚ) : ℤ := (q + 1 / 2).floor

/- ---------- string constants taken verbatim from the source ---------- -/

def nlL : List Char := ['\n']

def stdoutTy : List Char := "stdout".data
def stderrTy : List Char := "stderr".data
def warningTy : List Char := "warning".data
def messageTy : List Char := "message".data

def errLabel : List Char := "エラー: ".data
def warnLabel : List Char := "警告: ".data
def msgLabel : List Char := "メッセージ: ".data

def noCodeMsg : List Char := "コードが入力されていません".data
def notReadyMsg : List Char := "WebRが初期化されていません".data
def genericErrMsg : List Char := "コードの実行中にエラーが発生しました".data
def truncSuffix : List Char := "\n\n... (出力が長すぎるため省略されました)".data

/- ---------- captured items (`result.output` array elements) ---------- -/

/-- A value inside a nested captured array (`formatArray` input): a JS
number carrying its `String()` rendering, a JS string, or any other value
carrying its `String()` coercion. -/
inductive AVal where
  | num (repr : List Char)
  | str (s : List Char)
  | other (coerced : List Char)
deriving DecidableEq

def AVal.isNum : AVal → Bool
  | .num _ => true
  | _ => false

def AVal.isStr : AVal → Bool
  | .str _ => true
  | _ => false

/-- `String(item)` for an array element. -/
def jsStringOf : AVal → List Char
  | .num r => r
  | .str s => s
  | .other c => c

/-- One element of the interpreter's captured output array: a plain string,
an object with `type`/`data` fields, a nested array, some other object
(carrying its `JSON.stringify` rendering when that succeeds and its
`String()` coercion), or a non-object primitive with its `String()` form. -/
inductive RItem where
  | str (s : List Char)
  | tagged (ty : List Char) (data : List Char)
  | arr (elems : List AVal)
  | obj (json : Option (List Char)) (coerced : List Char)
  | prim (coerced : List Char)
deriving DecidableEq

/-- `formatArray` (source lines 202–217). -/
def formatArray (arr : List AVal) : List Char :=
  if arr = [] then "[]".data
  else if arr.all AVal.isNum then
    "[".data ++ List.intercalate ", ".data (arr.map jsStringOf) ++ "]".data
  else if arr.all AVal.isStr then
    List.intercalate nlL (arr.map jsStringOf)
  else
    List.intercalate nlL (arr.map jsStringOf)

def jsonEscapeChar (c : Char) : List Char :=
  if c = '"' || c = '\\' then ['\\', c]
  else if c = '\n' then ['\\', 'n']
  else if c = '\t' then ['\\', 't']
  else if c = '\r' then ['\\', 'r']
  else [c]

def jsonEscape (s : List Char) : List Char := (s.map jsonEscapeChar).flatten

/-- `JSON.stringify(item, null, 2)` for a `{type, data}` object (the
fall-through branch of `formatOutput` for tagged items that fail the
stream checks). -/
def stringifyTagged (ty data : List Char) : List Char :=
  "\x7b\n  \"type\": \"".data ++ jsonEscape ty ++
  "\",\n  \"data\": \"".data ++ jsonEscape data ++ "\"\n\x7d".data

/-- One captured item's rendering (the body of the `map` in
`formatOutput`, source lines 159–192). -/
def formatItem : RItem → List Char
  | .str s => s
  | .tagged ty data =>
    if ty = stdoutTy ∧ data ≠ [] then data
    else if ty = stderrTy ∧ data ≠ [] then errLabel ++ data
    else if ty = warningTy ∧ data ≠ [] then warnLabel ++ data
    else if ty = messageTy ∧ data ≠ [] then msgLabel ++ data
    else stringifyTagged ty data
  | .arr xs => formatArray xs
  | .obj json coerced =>
    match json with
    | some j => j
    | none => coerced
  | .prim coerced => coerced

/-- `formatOutput` (source lines 154–194). -/
def formatOutput (items : List RItem) : List Char :=
  if items = [] then []
  else List.intercalate nlL (items.map formatItem)

/-- `truncateOutput` (source lines 261–268). -/
def truncateOutput (maxLen : Nat) (output : List Char) : List Char :=
  if output.length ≤ maxLen then output
  else output.take maxLen ++ truncSuffix

/- ---------- error translation (`formatError`) ---------- -/

/-- A key of the `errorTranslations` table: either a literal substring
pattern or the one genuine regex `object .* not found`. -/
inductive Pat where
  | lit (p : List Char)
  | objNF
deriving DecidableEq

def lowerL (s : List Char) : List Char := s.map Char.toLower

/-- Case-insensitive literal match at the front of `m`; returns the
matched length. -/
def matchAtLit (p m : List Char) : Option Nat :=
  if List.isPrefixOf (lowerL p) (lowerL m) then some p.length else none

/-- Length of the first line of `m` (a JS regex `.` does not cross a
newline, so `.*` may consume at most this many characters). -/
def firstLineLen : List Char → Nat
  | [] => 0
  | c :: cs => if c = '\n' then 0 else firstLineLen cs + 1

/-- Greedy search for the ` not found` tail: `j` counts down from the
largest position `.*` may reach, so the first hit is the greedy one.
Returns `j + 10` (consumed by `.*` plus the literal tail). -/
def objSearch (m2 : List Char) : Nat → Option Nat
  | 0 =>
    if List.isPrefixOf (lowerL " not found".data) (lowerL m2) then some 10
    else none
  | j + 1 =>
    if List.isPrefixOf (lowerL " not found".data) (lowerL (m2.drop (j + 1))) then
      some (j + 1 + 10)
    else objSearch m2 j

/-- Match of `/object .* not found/i` at the front of `m`. -/
def matchAtObj (m : List Char) : Option Nat :=
  if List.isPrefixOf (lowerL "object ".data) (lowerL m) then
    match objSearch (m.drop 7) (firstLineLen (m.drop 7)) with
    | some t => some (7 + t)
    | none => none
  else none

def matchAtPat : Pat → List Char → Option Nat
  | .lit p, m => matchAtLit p m
  | .objNF, m => matchAtObj m

/-- Leftmost match of a pattern: the regex engine's scan over start
positions; returns (start index, matched length). -/
def findPatFrom (p : Pat) : List Char → Option (Nat × Nat)
  | [] =>
    match matchAtPat p [] with
    | some t => some (0, t)
    | none => none
  | c :: cs =>
    match matchAtPat p (c :: cs) with
    | some t => some (0, t)
    | none =>
      match findPatFrom p cs with
      | some (i, t) => some (i + 1, t)
      | none => none

/-- `message.replace(regex, translation)` for a non-global regex: replace
the leftmost match only. -/
def replaceFirstPat (p : Pat) (r : List Char) : List Char → List Char
  | [] =>
    match matchAtPat p [] with
    | some _ => r
    | none => []
  | c :: cs =>
    match matchAtPat p (c :: cs) with
    | some t => r ++ (c :: cs).drop t
    | none => c :: replaceFirstPat p r cs

/-- The ordered `errorTranslations` table (source lines 231–240). -/
def errorTranslations : List (Pat × List Char) :=
  [ (Pat.objNF, "オブジェクトが見つかりません".data),
    (Pat.lit "unexpected".data, "予期しない".data),
    (Pat.lit "Error in".data, "エラー:".data),
    (Pat.lit "could not find function".data, "関数が見つかりません".data),
    (Pat.lit "argument is of length zero".data, "引数の長さがゼロです".data),
    (Pat.lit "missing value".data, "欠損値".data),
    (Pat.lit "invalid".data, "無効な".data),
    (Pat.lit "incorrect number of dimensions".data, "次元数が正しくありません".data) ]

/-- One iteration of the translation loop: `if (regex.test(message))
message = message.replace(regex, translation)`. -/
def transStep (m : List Char) (e : Pat × List Char) : List Char :=
  if (findPatFrom e.1 m).isSome = true then replaceFirstPat e.1 e.2 m else m

def applyTranslations (m : List Char) : List Char :=
  errorTranslations.foldl transStep m

/-- `formatError` (source lines 225–253); the argument models
`error.message`, with `none` for an absent message and `[]` falsy. -/
def formatError (msg : Option (List Char)) : List Char :=
  match msg with
  | some s => if s = [] then genericErrMsg else applyTranslations s
  | none => genericErrMsg

/- ---------- execution coordinator (`executeCode`) ---------- -/

/-- The interpreter adapter's outcome for one `shelter.captureR` call:
either a raw result (`output` array plus possibly-absent `images`), or a
thrown error carrying a possibly-absent message. `α` is the opaque type
of rendered image handles. -/
inductive AdapterResult (α : Type) where
  | ok (output : List RItem) (images : Option (List α))
  | err (message : Option (List Char))

/-- The `ExecutionResult` object; `none` models an absent (undefined)
field. Fields: success, output, error, images, executionTime. -/
structure ExecutionResult (α : Type) where
  success : Bool
  output : Option (List Char)
  error : Option (List Char)
  images : Option (List α)
  executionTime : Option ℤ
deriving DecidableEq

/-- `executeCode` (source lines 90–146).  Returns `Except.error` for the
thrown not-ready error and otherwise the result paired with a flag
recording whether the interpreter adapter was invoked.  `maxLen` is
`config.maxOutputLength`; `elapsed` the wall-clock duration measured
around the adapter call. -/
def executeCode {α : Type} (maxLen : Nat) (ready : Bool) (code : List Char)
    (adapter : AdapterResult α) (elapsed : ℚ) :
    Except (List Char) (ExecutionResult α × Bool) :=
  if ready = false then Except.error notReadyMsg
  else if jsTrim code = [] then
    Except.ok (⟨false, none, some noCodeMsg, none, none⟩, false)
  else
    match adapter with
    | .ok output images =>
      Except.ok
        (⟨true, some (truncateOutput maxLen (formatOutput output)),
          none, some (images.getD []), some (jsRound elapsed)⟩, true)
    | .err m =>
      Except.ok
        (⟨false, none, some (formatError m), none, some (jsRound elapsed)⟩,
         true)

/- ---------- service lifecycle state ---------- -/

/-- The mutable fields of the service relevant to readiness. -/
structure ServiceState where
  ready : Bool
  shelter : Bool
  currentExecution : Bool
deriving DecidableEq

/-- The freshly constructed service (constructor, source lines 16–36). -/
def newService : ServiceState := ⟨false, false, false⟩

/-- `destroy` (source lines 293–308): cancels, drops the shelter, clears
the ready flag. -/
def destroy (_s : ServiceState) : ServiceState := ⟨false, false, false⟩

/- ---------- getVariable ---------- -/

/-- The R snippet built by `getVariable` (source line 378). -/
def getVarCode (name : List Char) : List Char :=
  "jsonlite::toJSON(".data ++ (name ++ ", auto_unbox = TRUE)".data)

/-- `getVariable` (source lines 372–394).  `parse` models `JSON.parse`
(`none` when it throws); the result is `none` for null, `Sum.inl` for a
parsed value, `Sum.inr` for the raw output string. -/
def getVariable {α β : Type} (maxLen : Nat) (ready : Bool) (name : List Char)
    (adapter : AdapterResult α) (elapsed : ℚ) (parse : List Char → Option β) :
    Except (List Char) (Option (β ⊕ List Char)) :=
  if ready = false then Except.error notReadyMsg
  else
    match executeCode maxLen true (getVarCode name) adapter elapsed with
    | .error _ => Except.ok none
    | .ok (r, _) =>
      if r.success = true then
        match r.output with
        | some o =>
          if o = [] then Except.ok none
          else
            match parse o with
            | some v => Except.ok (some (Sum.inl v))
            | none => Except.ok (some (Sum.inr o))
        | none => Except.ok none
      else Except.ok none

/- ---------- spec-side rendering of stream items (for refinement) ---------- -/

/-- Whether a captured item is one of the four labeled stream kinds with
non-empty (truthy) text. -/
def streamOk : RItem → Bool
  | .tagged ty data =>
    decide (data ≠ []) &&
      (decide (ty = stdoutTy) || decide (ty = stderrTy) ||
       decide (ty = warningTy) || decide (ty = messageTy))
  | _ => false

/-- Modelled from the spec's labeling rules (§4.2): the single line each
stream item maps to — stdout verbatim, stderr/warning/message with their
label prefixes. -/
def specStreamLine : RItem → List Char
  | .tagged ty data =>
    if ty = stdoutTy then data
    else if ty = stderrTy then errLabel ++ data
    else if ty = warningTy then warnLabel ++ data
    else if ty = messageTy then msgLabel ++ data
    else []
  | _ => []

/- ==================== helper lemmas ==================== -/

theorem replaceFirst_eq (p : Pat) (r : List Char) :
    ∀ (m : List Char) (i t : Nat), findPatFrom p m = some (i, t) →
      replaceFirstPat p r m = m.take i ++ r ++ m.drop (i + t)
  | [], i, t, h => by
    unfold findPatFrom at h
    unfold replaceFirstPat
    cases hm : matchAtPat p [] with
    | none => rw [hm] at h; exact absurd h (by simp)
    | some u =>
      rw [hm] at h
      simp only [Option.some.injEq, Prod.mk.injEq] at h
      obtain ⟨h1, _⟩ := h
      subst h1
      simp
  | c :: cs, i, t, h => by
    unfold findPatFrom at h
    unfold replaceFirstPat
    cases hm : matchAtPat p (c :: cs) with
    | some u =>
      rw [hm] at h
      simp only [Option.some.injEq, Prod.mk.injEq] at h
      obtain ⟨h1, h2⟩ := h
      subst h1; subst h2
      simp
    | none =>
      rw [hm] at h
      cases hf : findPatFrom p cs with
      | none => rw [hf] at h; exact absurd h (by simp)
      | some pr =>
        obtain ⟨i', t'⟩ := pr
        rw [hf] at h
        simp only [Option.some.injEq, Prod.mk.injEq] at h
        obtain ⟨h1, h2⟩ := h
        subst h1; subst h2
        have ih := replaceFirst_eq p r cs i' t' hf
        rw [ih]
        have : i' + 1 + t' = (i' + t') + 1 := by omega
        rw [this]
        simp [List.take_succ_cons, List.drop_succ_cons]

theorem foldl_transStep_id :
    ∀ (l : List (Pat × List Char)) (m : List Char),
      (∀ e ∈ l, findPatFrom e.1 m = none) → l.foldl transStep m = m
  | [], _, _ => rfl
  | e :: l, m, h => by
    have he : findPatFrom e.1 m = none := h e (by simp)
    have hstep : transStep m e = m := by
      unfold transStep
      rw [he]
      simp
    rw [List.foldl_cons, hstep]
    exact foldl_transStep_id l m (fun f hf => h f (by simp [hf]))

theorem formatOutput_eq_intercalate (items : List RItem) :
    formatOutput items = List.intercalate nlL (items.map formatItem) := by
  cases items with
  | nil => rfl
  | cons a l => rw [formatOutput, if_neg (by simp)]

theorem formatItem_stream (it : RItem) (h : streamOk it = true) :
    formatItem it = specStreamLine it := by
  cases it with
  | str s => simp [streamOk] at h
  | arr xs => simp [streamOk] at h
  | obj j c => simp [streamOk] at h
  | prim c => simp [streamOk] at h
  | tagged ty data =>
    simp only [streamOk, Bool.and_eq_true, Bool.or_eq_true, decide_eq_true_eq] at h
    obtain ⟨hd, hty⟩ := h
    have h1 : ¬ (stderrTy = stdoutTy) := by decide
    have h2 : ¬ (warningTy = stdoutTy) := by decide
    have h3 : ¬ (messageTy = stdoutTy) := by decide
    have h4 : ¬ (warningTy = stderrTy) := by decide
    have h5 : ¬ (messageTy = stderrTy) := by decide
    have h6 : ¬ (messageTy = warningTy) := by decide
    rcases hty with ((hty | hty) | hty) | hty <;> subst hty <;>
      simp [formatItem, specStreamLine, hd, h1, h2, h3, h4, h5, h6]

theorem jsTrim_getVarCode_ne_nil (name : List Char) :
    jsTrim (getVarCode name) ≠ [] := by
  intro h
  have hcons : getVarCode name =
      'j' :: ("sonlite::toJSON(".data ++ (name ++ ", auto_unbox = TRUE)".data)) := rfl
  have hdrop : (getVarCode name).dropWhile isJsWs = getVarCode name := by
    rw [hcons, List.dropWhile_cons]
    simp [isJsWs]
  unfold jsTrim at h
  rw [hdrop] at h
  have h2 : ((getVarCode name).reverse.dropWhile isJsWs) = [] := by
    cases hx : (getVarCode name).reverse.dropWhile isJsWs with
    | nil => rfl
    | cons b bs => rw [hx] at h; simp at h
  have h3 : ∀ x ∈ (getVarCode name).reverse, isJsWs x = true :=
    List.dropWhile_eq_nil_iff.mp h2
  have h4 : ('j' : Char) ∈ (getVarCode name).reverse := by
    rw [List.mem_reverse, hcons]
    exact List.mem_cons_self _ _
  have := h3 _ h4
  simp [isJsWs] at this

/- ==================== claims about the error translator ==================== -/

/-- Claim C4 (amended): `formatError` does not stop at the first matching
pattern: every entry of the ordered table whose pattern matches the
message as rewritten so far is applied, each substituting its localized
replacement for the leftmost case-insensitive match and preserving the
rest of the current message.  In particular, when exactly one entry
matches (splitting the table as `tbl1 ++ e :: tbl2`, no entry of `tbl1`
matches the message and no entry of `tbl2` matches the rewritten
message), the result is the message with that entry's leftmost match
replaced by its localized phrase and the surrounding text preserved. -/
theorem formatError_unique_match (tbl1 tbl2 : List (Pat × List Char))
    (e : Pat × List Char) (m : List Char) (i t : Nat)
    (htbl : errorTranslations = tbl1 ++ e :: tbl2)
    (hm0 : m ≠ [])
    (h1 : ∀ f ∈ tbl1, findPatFrom f.1 m = none)
    (hm : findPatFrom e.1 m = some (i, t))
    (h2 : ∀ f ∈ tbl2, findPatFrom f.1 (m.take i ++ e.2 ++ m.drop (i + t)) = none) :
    formatError (some m) = m.take i ++ e.2 ++ m.drop (i + t) := by
  have hfe : formatError (some m) = applyTranslations m := by
    simp [formatError, hm0]
  rw [hfe]
  unfold applyTranslations
  rw [htbl, List.foldl_append, foldl_transStep_id tbl1 m h1, List.foldl_cons]
  have hstep : transStep m e = m.take i ++ e.2 ++ m.drop (i + t) := by
    unfold transStep
    rw [hm]
    simp only [Option.isSome_some, if_pos]
    exact replaceFirst_eq e.1 e.2 m i t hm
  rw [hstep]
  exact foldl_transStep_id tbl2 _ h2

/-- Claim C4 witness at a concrete input: only `Error in` matches
`"Error in g"`, and the result is the message with the match replaced. -/
theorem formatError_unique_match_app :
    formatError (some "Error in g".data) =
      "Error in g".data.take 0 ++ "エラー:".data ++ "Error in g".data.drop (0 + 8) :=
  formatError_unique_match
    [(Pat.objNF, "オブジェクトが見つかりません".data),
     (Pat.lit "unexpected".data, "予期しない".data)]
    [(Pat.lit "could not find function".data, "関数が見つかりません".data),
     (Pat.lit "argument is of length zero".data, "引数の長さがゼロです".data),
     (Pat.lit "missing value".data, "欠損値".data),
     (Pat.lit "invalid".data, "無効な".data),
     (Pat.lit "incorrect number of dimensions".data, "次元数が正しくありません".data)]
    (Pat.lit "Error in".data, "エラー:".data)
    "Error in g".data 0 8 (by decide) (by decide) (by decide) (by decide)
    (by decide)

/-- Claim C4 counterexample: on `"Error in f: invalid arg"` the first
matching pattern is `Error in`, so substituting only its replacement and
preserving the rest of the message would give
`"エラー: f: invalid arg"`; the code instead also applies the later
`invalid` entry, producing `"エラー: f: 無効な arg"`. -/
theorem formatError_not_first_match_only :
    formatError (some "Error in f: invalid arg".data) =
        "エラー: f: 無効な arg".data ∧
      formatError (some "Error in f: invalid arg".data) ≠
        "エラー: f: invalid arg".data := by
  constructor
  · decide
  · decide

/-- Claim C7: a raw error message matching no pattern of the table is
returned unchanged, and an absent message yields the generic fallback
text. -/
theorem formatError_no_match_identity (m : List Char) (hm0 : m ≠ [])
    (h : ∀ e ∈ errorTranslations, findPatFrom e.1 m = none) :
    formatError (some m) = m ∧ formatError none = genericErrMsg := by
  refine ⟨?_, rfl⟩
  have hfe : formatError (some m) = applyTranslations m := by
    simp [formatError, hm0]
  rw [hfe]
  exact foldl_transStep_id errorTranslations m h

/-- Claim C7 witness: `"boom"` matches no pattern and is returned
unchanged. -/
theorem formatError_no_match_identity_app :
    formatError (some "boom".data) = "boom".data ∧
      formatError none = genericErrMsg :=
  formatError_no_match_identity "boom".data (by decide) (by decide)

/- ==================== claims about the result normalizer ==================== -/

/-- Claim C5 (amended): for a capture sequence whose items are all
labeled stream items carrying non-empty text, `formatOutput` maps each
item, in order, to the single line given by the spec's labeling rules
(stdout verbatim; stderr, warning and message with their label prefixes)
and joins the lines with newlines; the empty sequence yields the empty
text.  A stream item with empty text instead falls through to the
generic object serialization. -/
theorem formatOutput_stream_refines_spec (items : List RItem)
    (h : ∀ it ∈ items, streamOk it = true) :
    formatOutput items = List.intercalate nlL (items.map specStreamLine) := by
  rw [formatOutput_eq_intercalate]
  have hmap : items.map formatItem = items.map specStreamLine :=
    List.map_congr_left (fun it hit => formatItem_stream it (h it hit))
  rw [hmap]

/-- Claim C5 witness: a stdout line and a stderr line. -/
theorem formatOutput_stream_refines_spec_app :
    formatOutput [RItem.tagged stdoutTy "a".data, RItem.tagged stderrTy "b".data] =
      List.intercalate nlL
        ([RItem.tagged stdoutTy "a".data, RItem.tagged stderrTy "b".data].map
          specStreamLine) :=
  formatOutput_stream_refines_spec _ (by decide)

/-- Claim C5 counterexample: a stdout item with empty (falsy) text is not
rendered verbatim as an empty line — it falls through to the JSON object
dump, so the claim's prediction of empty text fails. -/
theorem formatOutput_empty_stream_not_verbatim :
    formatOutput [RItem.tagged stdoutTy []] ≠ [] := by decide

/-- Claim C9: an empty nested array renders as the two-character text
`[]`, before any numeric/text/mixed classification is consulted. -/
theorem formatArray_empty_brackets :
    formatArray [] = "[]".data ∧ formatOutput [RItem.arr []] = "[]".data := by
  exact ⟨rfl, rfl⟩

/- ==================== claims about the execution coordinator ==================== -/

/-- Claim C1: when the service is ready and the code is non-blank, an
adapter-thrown failure never propagates: `executeCode` returns a
`success:false` result whose error is the translated message and which
carries the elapsed duration rounded to integer milliseconds. -/
theorem executeCode_catches_adapter_error {α : Type} (maxLen : Nat)
    (code : List Char) (m : Option (List Char)) (elapsed : ℚ)
    (h : jsTrim code ≠ []) :
    executeCode maxLen true code (AdapterResult.err m : AdapterResult α)
        elapsed =
      Except.ok
        (⟨false, none, some (formatError m), none, some (jsRound elapsed)⟩,
         true) := by
  simp [executeCode, h]

/-- Claim C1 witness at a concrete non-empty code string and thrown
message. -/
theorem executeCode_catches_adapter_error_app :
    executeCode 10000 true "x".data
        (AdapterResult.err (some "boom".data) : AdapterResult Nat) 2 =
      Except.ok
        (⟨false, none, some (formatError (some "boom".data)), none,
          some (jsRound 2)⟩, true) :=
  executeCode_catches_adapter_error 10000 "x".data (some "boom".data) 2
    (by decide)

/-- Claim C2: in every returned `ExecutionResult`, the output field is
populated exactly when `success` holds, the error field exactly when it
fails, and the images list is non-empty only on success with at least
one image captured by the adapter. -/
theorem executeCode_result_invariant {α : Type} (maxLen : Nat) (ready : Bool)
    (code : List Char) (adapter : AdapterResult α) (elapsed : ℚ)
    (r : ExecutionResult α) (inv : Bool)
    (h : executeCode maxLen ready code adapter elapsed = Except.ok (r, inv)) :
    (r.output.isSome = true ↔ r.success = true) ∧
    (r.error.isSome = true ↔ r.success = false) ∧
    (∀ l, r.images = some l → l ≠ [] →
      r.success = true ∧
        ∃ ot imgs, adapter = AdapterResult.ok ot (some imgs) ∧ imgs ≠ []) := by
  cases ready with
  | false => simp [executeCode] at h
  | true =>
    by_cases hc : jsTrim code = []
    · simp only [executeCode, hc, if_pos, if_neg, Bool.true_eq_false,
        if_false, reduceIte, Except.ok.injEq, Prod.mk.injEq] at h
      obtain ⟨h1, _⟩ := h
      subst h1
      simp
    · cases adapter with
      | ok ot imgs =>
        simp only [executeCode, hc, Bool.true_eq_false, if_false, reduceIte,
          Except.ok.injEq, Prod.mk.injEq] at h
        obtain ⟨h1, _⟩ := h
        subst h1
        refine ⟨by simp, by simp, ?_⟩
        intro l hl hne
        refine ⟨rfl, ?_⟩
        cases imgs with
        | none => simp at hl; exact absurd hl hne
        | some js =>
          simp at hl
          exact ⟨ot, js, rfl, by rw [hl]; exact hne⟩
      | err m =>
        simp only [executeCode, hc, Bool.true_eq_false, if_false, reduceIte,
          Except.ok.injEq, Prod.mk.injEq] at h
        obtain ⟨h1, _⟩ := h
        subst h1
        simp

/-- Claim C2 witness: a successful execution with no captured images. -/
theorem executeCode_result_invariant_app :
    ((some ([] : List Char)).isSome = true ↔ true = true) ∧
    ((none : Option (List Char)).isSome = true ↔ true = false) ∧
    (∀ l, (some ([] : List Nat)) = some l → l ≠ [] →
      true = true ∧
        ∃ ot imgs,
          (AdapterResult.ok [] none : AdapterResult Nat) =
              AdapterResult.ok ot (some imgs) ∧
            imgs ≠ []) := by
  have h :=
    executeCode_result_invariant 10 true "x".data
      (AdapterResult.ok [] none : AdapterResult Nat) 0
      ⟨true, some [], none, some [], some (jsRound 0)⟩ true rfl
  exact h

/-- Claim C3: output longer than the configured maximum is cut at the
maximum and the fixed omission suffix appended (total length = maximum +
suffix length, suffix at the end); output at or under the maximum is
returned unchanged; error text is the translated message itself, never
passed through truncation. -/
theorem truncateOutput_spec {α : Type} (maxLen : Nat) (out code : List Char)
    (m : Option (List Char)) (elapsed : ℚ) :
    (out.length ≤ maxLen → truncateOutput maxLen out = out) ∧
    (maxLen < out.length →
      (truncateOutput maxLen out).length = maxLen + truncSuffix.length ∧
        truncSuffix <:+ truncateOutput maxLen out) ∧
    (jsTrim code ≠ [] →
      ∀ (r : ExecutionResult α) (inv : Bool),
        executeCode maxLen true code (AdapterResult.err m : AdapterResult α)
            elapsed =
          Except.ok (r, inv) →
        r.error = some (formatError m)) := by
  refine ⟨?_, ?_, ?_⟩
  · intro h
    simp [truncateOutput, h]
  · intro h
    have hnot : ¬ out.length ≤ maxLen := by omega
    unfold truncateOutput
    rw [if_neg hnot]
    constructor
    · simp [List.length_take]
      omega
    · exact ⟨out.take maxLen, rfl⟩
  · intro hc r inv h
    rw [executeCode_catches_adapter_error maxLen code m elapsed hc] at h
    simp only [Except.ok.injEq, Prod.mk.injEq] at h
    obtain ⟨h1, _⟩ := h
    rw [← h1]

/-- Claim C3 witness: truncation at max length 3 of a 5-character output,
no truncation at the boundary, and an untruncated error text. -/
theorem truncateOutput_spec_app :
    ((truncateOutput 3 "abcde".data).length = 3 + truncSuffix.length ∧
      truncSuffix <:+ truncateOutput 3 "abcde".data) ∧
    truncateOutput 3 "abc".data = "abc".data ∧
    (⟨false, none, some (formatError (some "boom".data)), none,
        some (jsRound 0)⟩ : ExecutionResult Nat).error =
      some (formatError (some "boom".data)) := by
  refine ⟨?_, ?_, ?_⟩
  · exact
      (@truncateOutput_spec Nat 3 "abcde".data "x".data none 0).2.1
        (by decide)
  · exact
      (@truncateOutput_spec Nat 3 "abc".data "x".data none 0).1
        (by decide)
  · exact
      (truncateOutput_spec 3 "abc".data "x".data (some "boom".data) 0).2.2
        (by decide)
        ⟨false, none, some (formatError (some "boom".data)), none,
          some (jsRound 0)⟩
        true rfl

/-- Claim C6: blank (empty or whitespace-only) code yields the fixed
failure result with no execution time and without invoking the adapter
(the invocation flag is false and the result does not depend on the
adapter). -/
theorem executeCode_blank_code {α : Type} (maxLen : Nat) (code : List Char)
    (adapter : AdapterResult α) (elapsed : ℚ) (h : jsTrim code = []) :
    executeCode maxLen true code adapter elapsed =
      Except.ok (⟨false, none, some noCodeMsg, none, none⟩, false) := by
  simp [executeCode, h]

/-- Claim C6 witness: whitespace-only code. -/
theorem executeCode_blank_code_app :
    executeCode 10000 true "  \n ".data
        (AdapterResult.ok [] none : AdapterResult Nat) 0 =
      Except.ok (⟨false, none, some noCodeMsg, none, none⟩, false) :=
  executeCode_blank_code 10000 "  \n ".data (AdapterResult.ok [] none) 0
    (by decide)

/-- Claim C8: when the ready flag is not set — as in a freshly
constructed service or one on which `destroy` has run — `executeCode`
throws the not-ready error instead of producing a result. -/
theorem executeCode_not_ready_throws {α : Type} (maxLen : Nat)
    (code : List Char) (adapter : AdapterResult α) (elapsed : ℚ)
    (s : ServiceState) :
    executeCode maxLen false code adapter elapsed =
        Except.error notReadyMsg ∧
      (destroy s).ready = false ∧ newService.ready = false := by
  refine ⟨?_, rfl, rfl⟩
  simp [executeCode]

/-- Claim C10: with the service ready, `getVariable` never throws: it
yields null when the adapter call fails or the output is empty, the
parsed value when the output parses, and the raw output string
otherwise. -/
theorem getVariable_never_throws {α β : Type} (maxLen : Nat)
    (name : List Char) (adapter : AdapterResult α) (elapsed : ℚ)
    (parse : List Char → Option β) :
    (∃ v, getVariable maxLen true name adapter elapsed parse = Except.ok v) ∧
    (∀ mm, adapter = AdapterResult.err mm →
      getVariable maxLen true name adapter elapsed parse = Except.ok none) ∧
    (∀ ot imgs, adapter = AdapterResult.ok ot imgs →
      (truncateOutput maxLen (formatOutput ot) = [] →
        getVariable maxLen true name adapter elapsed parse =
          Except.ok none) ∧
      (∀ v, parse (truncateOutput maxLen (formatOutput ot)) = some v →
        truncateOutput maxLen (formatOutput ot) ≠ [] →
        getVariable maxLen true name adapter elapsed parse =
          Except.ok (some (Sum.inl v))) ∧
      (parse (truncateOutput maxLen (formatOutput ot)) = none →
        truncateOutput maxLen (formatOutput ot) ≠ [] →
        getVariable maxLen true name adapter elapsed parse =
          Except.ok (some (Sum.inr (truncateOutput maxLen (formatOutput ot)))))) := by
  have htrim := jsTrim_getVarCode_ne_nil name
  cases adapter with
  | err mm =>
    have hgv : getVariable maxLen true name
        (AdapterResult.err mm : AdapterResult α) elapsed parse =
        Except.ok none := by
      unfold getVariable
      rw [executeCode_catches_adapter_error maxLen (getVarCode name) mm
        elapsed htrim]
      simp
    refine ⟨⟨none, hgv⟩, ?_, ?_⟩
    · intro mm' _
      exact hgv
    · intro ot imgs hco
      exact absurd hco (by simp)
  | ok ot imgs =>
    have hexec : executeCode maxLen true (getVarCode name)
        (AdapterResult.ok ot imgs : AdapterResult α) elapsed =
        Except.ok
          (⟨true, some (truncateOutput maxLen (formatOutput ot)), none,
            some (imgs.getD []), some (jsRound elapsed)⟩, true) := by
      simp [executeCode, htrim]
    by_cases ho : truncateOutput maxLen (formatOutput ot) = []
    · have hgv : getVariable maxLen true name
          (AdapterResult.ok ot imgs : AdapterResult α) elapsed parse =
          Except.ok none := by
        unfold getVariable
        rw [hexec]
        simp [ho]
      refine ⟨⟨none, hgv⟩, ?_, ?_⟩
      · intro mm hco
        exact absurd hco (by simp)
      · intro ot' imgs' hco
        have h1 : ot' = ot := by
          injection hco with e1 e2
          exact e1.symm
        subst h1
        exact ⟨fun _ => hgv, fun v hv _ => absurd ho (by simp_all),
          fun hv hne => absurd ho hne⟩
    · cases hp : parse (truncateOutput maxLen (formatOutput ot)) with
      | some v =>
        have hgv : getVariable maxLen true name
            (AdapterResult.ok ot imgs : AdapterResult α) elapsed parse =
            Except.ok (some (Sum.inl v)) := by
          unfold getVariable
          rw [hexec]
          simp [ho, hp]
        refine ⟨⟨some (Sum.inl v), hgv⟩, ?_, ?_⟩
        · intro mm hco
          exact absurd hco (by simp)
        · intro ot' imgs' hco
          have h1 : ot' = ot := by
            injection hco with e1 e2
            exact e1.symm
          subst h1
          refine ⟨fun hc => absurd hc ho, ?_, ?_⟩
          · intro v' hv' _
            rw [hp] at hv'
            injection hv' with e
            rw [← e]
            exact hgv
          · intro hv' _
            rw [hp] at hv'
            exact absurd hv' (by simp)
      | none =>
        have hgv : getVariable maxLen true name
            (AdapterResult.ok ot imgs : AdapterResult α) elapsed parse =
            Except.ok
              (some (Sum.inr (truncateOutput maxLen (formatOutput ot)))) := by
          unfold getVariable
          rw [hexec]
          simp [ho, hp]
        refine ⟨⟨_, hgv⟩, ?_, ?_⟩
        · intro mm hco
          exact absurd hco (by simp)
        · intro ot' imgs' hco
          have h1 : ot' = ot := by
            injection hco with e1 e2
            exact e1.symm
          subst h1
          refine ⟨fun hc => absurd hc ho, ?_, fun _ _ => hgv⟩
          intro v' hv' _
          rw [hp] at hv'
          exact absurd hv' (by simp)

/-- Claim C10 witness: a ready service whose adapter emits `42`, with a
parse function that parses it. -/
theorem getVariable_never_throws_app :
    getVariable 10 true "x".data
        (AdapterResult.ok [RItem.str "42".data] none : AdapterResult Nat) 0
        (fun o => if o = "42".data then some (42 : Nat) else none) =
      Except.ok (some (Sum.inl 42)) := by
  have h :=
    ((getVariable_never_throws 10 "x".data
        (AdapterResult.ok [RItem.str "42".data] none : AdapterResult Nat) 0
        (fun o => if o = "42".data then some (42 : Nat) else none)).2.2
      [RItem.str "42".data] none rfl).2.1 42 (by decide) (by decide)
  exact h
